import Mathlib

/-!
Verification of the petalo scattergram/lorogram component and the Siddon
projector edge cases, via a shallow embedding of the Rust source
(src/lorogram.rs, src/projector/mod.rs) into Lean.  f32 values are modelled
as real numbers; histogram bin counts (usize) as naturals; Rust panics as
the none case of Option.
-/

namespace Petalo

/-- 3-D point with f32 coordinates (geometry::Point, unit-stripped). -/
structure Point where
  x : ℝ
  y : ℝ
  z : ℝ

/-- Line of response: two endpoints, a time difference and a correction
weight (system_matrix::LOR, fields as used by mk_lor). -/
structure LOR where
  p1 : Point
  p2 : Point
  dt : ℝ
  additive_correction : ℝ

/-- Distinguish between true, scatter and random prompt signals. -/
inductive Prompt where
  | True
  | Scatter
  | Random

/-- fn z_of_midpoint(LOR {p1, p2, ..}: &LOR) -> Length { (p1.z + p2.z) / 2.0 } -/
noncomputable def z_of_midpoint (l : LOR) : ℝ := (l.p1.z + l.p2.z) / 2

/-- fn delta_z(LOR{p1, p2, ..}: &LOR) -> Length { (p1.z - p2.z).abs() } -/
noncomputable def delta_z (l : LOR) : ℝ := |l.p1.z - l.p2.z|

/-- fn distance_from_z_axis: |dx * y1 - dy * x1| / sqrt(dx*dx + dy*dy). -/
noncomputable def distance_from_z_axis (l : LOR) : ℝ :=
  let dx := l.p2.x - l.p1.x
  let dy := l.p2.y - l.p1.y
  |dx * l.p1.y - dy * l.p1.x| / Real.sqrt (dx * dx + dy * dy)

/-- Model of f32::atan2 (self = y, other = x) on the reals. -/
noncomputable def atan2 (y x : ℝ) : ℝ :=
  if 0 < x then Real.arctan (y / x)
  else if x < 0 then
    (if y < 0 then Real.arctan (y / x) - Real.pi else Real.arctan (y / x) + Real.pi)
  else (if 0 < y then Real.pi / 2 else if y < 0 then -(Real.pi / 2) else 0)

/-- fn phi_of_x_y(x: Length, y: Length) -> Angle { y.atan2(x) } -/
noncomputable def phi_of_x_y (x y : ℝ) : ℝ := atan2 y x

/-- fn phi: signed-distance test flips the angle by half a turn (pi radians). -/
noncomputable def phi (l : LOR) : ℝ :=
  let dx := l.p2.x - l.p1.x
  let dy := l.p2.y - l.p1.y
  let r := (dx * l.p1.y - dy * l.p1.x) / Real.sqrt (dx * dx + dy * dy)
  let angle := phi_of_x_y dx dy
  if r < 0 then angle + Real.pi else angle

/-- ndhistogram Uniform axis: nbins regular bins on [lo, hi) plus an
underflow bin (index 0) and an overflow bin (index nbins+1). -/
structure UniformAxis where
  nbins : ℕ
  lo : ℝ
  hi : ℝ

/-- ndhistogram UniformCyclic axis: nbins bins, coordinates wrapped into
[lo, hi). -/
structure CyclicAxis where
  nbins : ℕ
  lo : ℝ
  hi : ℝ

/-- Uniform::index: underflow to bin 0, overflow to bin nbins+1, otherwise
1 + floor of the scaled offset. -/
noncomputable def UniformAxis.index (a : UniformAxis) (x : ℝ) : Option ℕ :=
  if x < a.lo then some 0
  else if a.hi ≤ x then some (a.nbins + 1)
  else some ((⌊(x - a.lo) / ((a.hi - a.lo) / (a.nbins : ℝ))⌋).toNat + 1)

/-- UniformCyclic::index: wrap the scaled offset into [0, 1) and bin it. -/
noncomputable def CyclicAxis.index (a : CyclicAxis) (x : ℝ) : Option ℕ :=
  let frac := (x - a.lo) / (a.hi - a.lo)
  some ((⌊(frac - (⌊frac⌋ : ℝ)) * (a.nbins : ℝ)⌋).toNat)

/-- MappedAxis over a Uniform axis: a pure feature map LOR -> coordinate
plus the binning strategy (kept separate, as in the source). -/
structure LorAxU where
  axis : UniformAxis
  map : LOR → ℝ

/-- MappedAxis over a Cyclic axis. -/
structure LorAxC where
  axis : CyclicAxis
  map : LOR → ℝ

/-- MappedAxis::index = underlying axis index of the mapped coordinate. -/
noncomputable def LorAxU.index (a : LorAxU) (l : LOR) : Option ℕ :=
  a.axis.index (a.map l)

/-- MappedAxis::index for the cyclic variant. -/
noncomputable def LorAxC.index (a : LorAxC) (l : LOR) : Option ℕ :=
  a.axis.index (a.map l)

/-- pub fn axis_z(nbins, min, max): Uniform(nbins, min, max) over z_of_midpoint. -/
noncomputable def axis_z (nbins : ℕ) (lo hi : ℝ) : LorAxU :=
  ⟨⟨nbins, lo, hi⟩, fun l => z_of_midpoint l⟩

/-- pub fn axis_dz(nbins, max): Uniform(nbins, 0, max) over delta_z. -/
noncomputable def axis_dz (nbins : ℕ) (hi : ℝ) : LorAxU :=
  ⟨⟨nbins, 0, hi⟩, fun l => delta_z l⟩

/-- pub fn axis_r(nbins, max): Uniform(nbins, 0, max) over distance_from_z_axis. -/
noncomputable def axis_r (nbins : ℕ) (hi : ℝ) : LorAxU :=
  ⟨⟨nbins, 0, hi⟩, fun l => distance_from_z_axis l⟩

/-- pub fn axis_phi(nbins): Cyclic(nbins, 0, TAU) over phi. -/
noncomputable def axis_phi (nbins : ℕ) : LorAxC :=
  ⟨⟨nbins, 0, 2 * Real.pi⟩, fun l => phi l⟩

/-- pub fn axis_t(nbins, max): Uniform(nbins, ps_(-max), ps_(max)), but the
mapped coordinate is mm_(z_of_midpoint(z)) — exactly as written in the
source, where the closure ignores the LOR's dt. -/
noncomputable def axis_t (nbins : ℕ) (hi : ℝ) : LorAxU :=
  ⟨⟨nbins, -hi, hi⟩, fun l => z_of_midpoint l⟩

/-- The five scattergram axes: (phi, z, dz, r, t), as in
type Lorogram = HistND<(LorAxC, LorAxU, LorAxU, LorAxU, LorAxU), usize>. -/
abbrev Axes5 : Type := LorAxC × LorAxU × LorAxU × LorAxU × LorAxU

/-- Bin index tuple of the five-axis histogram. -/
abbrev Idx5 : Type := ℕ × ℕ × ℕ × ℕ × ℕ

/-- Combined index of the 5-axis histogram: some only if every axis bins
the coordinate (ndhistogram Axes::index for a 5-tuple). -/
noncomputable def index5 (axes : Axes5) (l : LOR) : Option Idx5 := do
  let i0 ← axes.1.index l
  let i1 ← axes.2.1.index l
  let i2 ← axes.2.2.1.index l
  let i3 ← axes.2.2.2.1.index l
  let i4 ← axes.2.2.2.2.index l
  pure (i0, i1, i2, i3, i4)

/-- Five-axis histogram of usize counts over LORs (the Lorogram). -/
structure Lorogram where
  axes : Axes5
  counts : Idx5 → ℕ

/-- Exrogram::fi11 for HistND: Histogram::fill increments the matched bin,
and is a no-op when the coordinate matches no bin. -/
noncomputable def Lorogram.fi11 (h : Lorogram) (l : LOR) : Lorogram :=
  match index5 h.axes l with
  | some i => { h with counts := fun j => if j = i then h.counts j + 1 else h.counts j }
  | none => h

/-- Histogram::value: the count of the matched bin, none if no bin matches. -/
noncomputable def Lorogram.ualueOpt (h : Lorogram) (l : LOR) : Option ℕ :=
  (index5 h.axes l).map h.counts

/-- *Histogram::value(self, ...).unwrap_or(&0): a missing bin reads as 0. -/
def lookupOrZero (c : Idx5 → ℕ) (oi : Option Idx5) : ℕ :=
  (oi.map c).getD 0

/-- Exrogram::ualue for HistND. -/
noncomputable def Lorogram.ualue (h : Lorogram) (l : LOR) : ℕ :=
  lookupOrZero h.counts (index5 h.axes l)

/-- The f32::MAX sentinel, (2 - 2^-23) * 2^127, as a real number. -/
def f32MAX : ℝ := 2 ^ (128 : ℕ) - 2 ^ (104 : ℕ)

/-- pub struct Scattergram { trues: Lorogram, scatters: Lorogram } -/
structure Scattergram where
  trues : Lorogram
  scatters : Lorogram

/-- Scattergram::new.  Note, exactly as in the source: the trues histogram
uses axis_dz(bins_dz, len_dz) while the scatters histogram uses
axis_dz(bins_dz, len_z). -/
noncomputable def Scattergram.new (bins_phi bins_z : ℕ) (len_z : ℝ) (bins_dz : ℕ)
    (len_dz : ℝ) (bins_r : ℕ) (max_r : ℝ) (bins_dt : ℕ) (max_dt : ℝ) : Scattergram :=
  let max_z := len_z / 2
  let trues : Lorogram :=
    { axes := (axis_phi bins_phi, axis_z bins_z (-max_z) max_z, axis_dz bins_dz len_dz,
               axis_r bins_r max_r, axis_t bins_dt max_dt),
      counts := fun _ => 0 }
  let scatters : Lorogram :=
    { axes := (axis_phi bins_phi, axis_z bins_z (-max_z) max_z, axis_dz bins_dz len_z,
               axis_r bins_r max_r, axis_t bins_dt max_dt),
      counts := fun _ => 0 }
  { trues := trues, scatters := scatters }

/-- Scattergram::fill: routes True/Scatter to the matching histogram;
Random panics ("Not expecting any random events yet."), modelled as none. -/
noncomputable def Scattergram.fill (s : Scattergram) (kind : Prompt) (l : LOR) :
    Option Scattergram :=
  match kind with
  | Prompt.True => some { s with trues := s.trues.fi11 l }
  | Prompt.Scatter => some { s with scatters := s.scatters.fi11 l }
  | Prompt.Random => none

/-- Scattergram::value: (scatters + trues) / trues if trues > 0, else f32::MAX. -/
noncomputable def Scattergram.value (s : Scattergram) (l : LOR) : ℝ :=
  let trues := s.trues.ualue l
  if 0 < trues then ((s.scatters.ualue l : ℝ) + (trues : ℝ)) / (trues : ℝ)
  else f32MAX

/-- Scattergram::triplet: same ratio plus the raw counts if trues > 0,
else (1.0, 0.0, scatters). -/
noncomputable def Scattergram.triplet (s : Scattergram) (l : LOR) : ℝ × ℝ × ℝ :=
  let trues := s.trues.ualue l
  if 0 < trues then
    (((s.scatters.ualue l : ℝ) + (trues : ℝ)) / (trues : ℝ), (trues : ℝ),
      (s.scatters.ualue l : ℝ))
  else (1, 0, (s.scatters.ualue l : ℝ))

/-- A call to Scattergram::value through an immutable borrow (&self): the
state is handed back to the caller unchanged alongside the result. -/
noncomputable def Scattergram.valueCall (s : Scattergram) (l : LOR) : ℝ × Scattergram :=
  (s.value l, s)

/-- A call to Scattergram::triplet through an immutable borrow. -/
noncomputable def Scattergram.tripletCall (s : Scattergram) (l : LOR) :
    (ℝ × ℝ × ℝ) × Scattergram :=
  (s.triplet l, s)

/-- Modelled from the spec: the field of view (the repository's fov.rs is
not among the given sources; only its callers are).  Per the spec, an FOV
is a physical half-extent per axis and a positive voxel count per axis. -/
structure FOV where
  hx : ℝ
  hy : ℝ
  hz : ℝ
  nx : ℕ
  ny : ℕ
  nz : ℕ

/-- Point on the segment of a LOR at parameter t, t = 0 at p1, t = 1 at p2. -/
def pointAt (l : LOR) (t : ℝ) : Point :=
  ⟨l.p1.x + t * (l.p2.x - l.p1.x),
   l.p1.y + t * (l.p2.y - l.p1.y),
   l.p1.z + t * (l.p2.z - l.p1.z)⟩

/-- Membership in the closed FOV box centred on the origin. -/
def inFOV (fov : FOV) (p : Point) : Prop :=
  |p.x| ≤ fov.hx ∧ |p.y| ≤ fov.hy ∧ |p.z| ≤ fov.hz

/-- The segment of a LOR lies entirely outside the FOV box. -/
def entirelyOutside (fov : FOV) (l : LOR) : Prop :=
  ∀ t : ℝ, 0 ≤ t → t ≤ 1 → ¬ inFOV fov (pointAt l t)

/-- Euclidean length of the segment p1-p2. -/
noncomputable def segLength (l : LOR) : ℝ :=
  Real.sqrt ((l.p2.x - l.p1.x) ^ 2 + (l.p2.y - l.p1.y) ^ 2 + (l.p2.z - l.p1.z) ^ 2)

/-- Modelled from the spec: per-axis parameter range during which the ray
coordinate p + alpha * d stays within the slab [-h, h]; none when the axis
direction is zero and the (constant) coordinate is outside the slab. -/
noncomputable def alphaRange1 (p d h : ℝ) : Option (ℝ × ℝ) :=
  if d = 0 then (if |p| ≤ h then some (0, 1) else none)
  else some (min ((-h - p) / d) ((h - p) / d), max ((-h - p) / d) ((h - p) / d))

/-- Modelled from the spec: the FOV entry/exit parameter range of a LOR,
clipped to alpha in [0, 1]; none when the clipped range is empty. -/
noncomputable def entryExit (fov : FOV) (l : LOR) : Option (ℝ × ℝ) :=
  match alphaRange1 l.p1.x (l.p2.x - l.p1.x) fov.hx,
        alphaRange1 l.p1.y (l.p2.y - l.p1.y) fov.hy,
        alphaRange1 l.p1.z (l.p2.z - l.p1.z) fov.hz with
  | some (a1, b1), some (a2, b2), some (a3, b3) =>
    let lo := max 0 (max a1 (max a2 a3))
    let hi := min 1 (min b1 (min b2 b3))
    if lo < hi then some (lo, hi) else none
  | _, _, _ => none

/-- Modelled from the spec: parameter of the next voxel-boundary crossing
along one axis, past the current voxel index i; effectively infinite
(beyond hi) when the axis direction is zero. -/
noncomputable def nextCrossing (p d h s : ℝ) (i : ℤ) (hi : ℝ) : ℝ :=
  if 0 < d then ((-h + ((i : ℝ) + 1) * s) - p) / d
  else if d < 0 then ((-h + (i : ℝ) * s) - p) / d
  else hi + 1

/-- Modelled from the spec: the Siddon walk.  From the current parameter and
voxel, advance to the nearest next axis crossing (x before y before z on
ties), recording (voxel index, interval length x segment length); stop at
the exit parameter.  Fuel bounds the number of steps. -/
noncomputable def walk (fov : FOV) (l : LOR) (len hi : ℝ) :
    ℕ → ℝ → ℤ × ℤ × ℤ → List ((ℤ × ℤ × ℤ) × ℝ)
  | 0, _, _ => []
  | fuel + 1, cur, (ix, iy, iz) =>
    let sx := 2 * fov.hx / (fov.nx : ℝ)
    let sy := 2 * fov.hy / (fov.ny : ℝ)
    let sz := 2 * fov.hz / (fov.nz : ℝ)
    let dx := l.p2.x - l.p1.x
    let dy := l.p2.y - l.p1.y
    let dz := l.p2.z - l.p1.z
    let ax := nextCrossing l.p1.x dx fov.hx sx ix hi
    let ay := nextCrossing l.p1.y dy fov.hy sy iy hi
    let az := nextCrossing l.p1.z dz fov.hz sz iz hi
    if hi ≤ min ax (min ay az) then [((ix, iy, iz), (hi - cur) * len)]
    else if ax ≤ ay ∧ ax ≤ az then
      ((ix, iy, iz), (ax - cur) * len) ::
        walk fov l len hi fuel ax (ix + (if 0 < dx then 1 else -1), iy, iz)
    else if ay ≤ az then
      ((ix, iy, iz), (ay - cur) * len) ::
        walk fov l len hi fuel ay (ix, iy + (if 0 < dy then 1 else -1), iz)
    else
      ((ix, iy, iz), (az - cur) * len) ::
        walk fov l len hi fuel az (ix, iy, iz + (if 0 < dz then 1 else -1))

/-- Voxel index along one axis of a coordinate c, for half-extent h and
voxel size s. -/
noncomputable def voxelIndex (c h s : ℝ) : ℤ := ⌊(c + h) / s⌋

/-- Modelled from the spec: the Siddon projector's system-matrix row for one
LOR.  A zero-length segment (p1 == p2) yields an empty row; a segment whose
clipped FOV parameter range is empty yields an empty row; otherwise the
voxels traversed between entry and exit are listed in order with their
intersection lengths. -/
noncomputable def siddon (fov : FOV) (l : LOR) : List ((ℤ × ℤ × ℤ) × ℝ) :=
  if l.p1.x = l.p2.x ∧ l.p1.y = l.p2.y ∧ l.p1.z = l.p2.z then []
  else
    match entryExit fov l with
    | none => []
    | some (lo, hi) =>
      let e := pointAt l lo
      let sx := 2 * fov.hx / (fov.nx : ℝ)
      let sy := 2 * fov.hy / (fov.ny : ℝ)
      let sz := 2 * fov.hz / (fov.nz : ℝ)
      walk fov l (segLength l) hi (fov.nx + fov.ny + fov.nz + 3) lo
        (voxelIndex e.x fov.hx sx, voxelIndex e.y fov.hy sy, voxelIndex e.z fov.hz sz)

/-- The LOR with its endpoints exchanged. -/
def LOR.swapped (l : LOR) : LOR :=
  { l with p1 := l.p2, p2 := l.p1 }

/-- A concrete probe LOR. -/
def lorW : LOR := ⟨⟨0, 0, 0⟩, ⟨1, 2, 3⟩, 0, 1⟩

/-- Another concrete probe LOR. -/
def lorV : LOR := ⟨⟨0, 0, 0⟩, ⟨2, 0, 0⟩, 0, 1⟩

/-- A freshly built scattergram: every bin of both histograms holds 0. -/
noncomputable def sEmpty : Scattergram := Scattergram.new 1 1 1000 1 500 1 1 1 1

/-- The scattergram after recording lorV once as a True prompt. -/
noncomputable def sOne : Scattergram :=
  { trues := sEmpty.trues.fi11 lorV, scatters := sEmpty.scatters }

/-- A concrete FOV with unit half-widths. -/
def fovW : FOV := ⟨1, 1, 1, 1, 1, 1⟩

/-- A LOR whose segment stays at x = 5, outside fovW. -/
def lorOut : LOR := ⟨⟨5, 0, 0⟩, ⟨5, 0, 1⟩, 0, 1⟩

/-- A zero-length LOR. -/
def lorDeg : LOR := ⟨⟨0, 0, 0⟩, ⟨0, 0, 0⟩, 0, 1⟩

/-- A probe LOR with dt = 0. -/
def lorT1 : LOR := ⟨⟨0, 0, 4⟩, ⟨0, 0, 6⟩, 0, 1⟩

/-- The same endpoints as lorT1 but dt = 999. -/
def lorT2 : LOR := ⟨⟨0, 0, 4⟩, ⟨0, 0, 6⟩, 999, 1⟩

/-! ## Helper lemmas -/

/-- A Uniform axis bins every (real) coordinate: every branch of index is some. -/
theorem uindex_isSome (a : UniformAxis) (x : ℝ) : ∃ n, a.index x = some n := by
  unfold UniformAxis.index
  split
  · exact ⟨0, rfl⟩
  split
  · exact ⟨_, rfl⟩
  · exact ⟨_, rfl⟩

/-- A Cyclic axis bins every (real) coordinate. -/
theorem cindex_isSome (a : CyclicAxis) (x : ℝ) : ∃ n, a.index x = some n :=
  ⟨_, rfl⟩

/-- The combined five-axis index matches some bin for every LOR. -/
theorem index5_isSome (axes : Axes5) (l : LOR) : ∃ i, index5 axes l = some i := by
  obtain ⟨n0, h0⟩ := cindex_isSome axes.1.axis (axes.1.map l)
  obtain ⟨n1, h1⟩ := uindex_isSome axes.2.1.axis (axes.2.1.map l)
  obtain ⟨n2, h2⟩ := uindex_isSome axes.2.2.1.axis (axes.2.2.1.map l)
  obtain ⟨n3, h3⟩ := uindex_isSome axes.2.2.2.1.axis (axes.2.2.2.1.map l)
  obtain ⟨n4, h4⟩ := uindex_isSome axes.2.2.2.2.axis (axes.2.2.2.2.map l)
  exact ⟨(n0, n1, n2, n3, n4),
    by simp [index5, LorAxC.index, LorAxU.index, h0, h1, h2, h3, h4]⟩

/-- Reading any bin of a histogram whose counts are all zero gives zero. -/
theorem ualue_zero_counts (g : Lorogram) (l : LOR) (h : ∀ i, g.counts i = 0) :
    g.ualue l = 0 := by
  unfold Lorogram.ualue lookupOrZero
  cases hi : index5 g.axes l <;> simp [h]

/-- Filling a histogram at a LOR increments the count read back at that LOR. -/
theorem fi11_ualue_self (g : Lorogram) (l : LOR) :
    (g.fi11 l).ualue l = g.ualue l + 1 := by
  obtain ⟨i, hi⟩ := index5_isSome g.axes l
  unfold Lorogram.fi11
  rw [hi]
  unfold Lorogram.ualue lookupOrZero
  simp [hi]

/-- After one True fill at lorV, the trues bin containing lorV is positive. -/
theorem sOne_trues_pos : 0 < sOne.trues.ualue lorV := by
  have h1 : sOne.trues.ualue lorV = sEmpty.trues.ualue lorV + 1 := fi11_ualue_self _ _
  rw [h1]
  exact Nat.succ_pos _

/-! ## Claim theorems -/

/-- C2 (code bug exhibit): Scattergram::new(1, 1, len_z = 1000, 1,
len_dz = 500, 1, 1, 1, 1) gives the trues histogram a dz axis with upper
bound 500 (len_dz) but the scatters histogram a dz axis with upper bound
1000 (len_z), so the two histograms do not share identical axis
definitions. -/
theorem new_dz_axes_differ :
    (Scattergram.new 1 1 1000 1 500 1 1 1 1).trues.axes.2.2.1.axis.hi = 500
    ∧ (Scattergram.new 1 1 1000 1 500 1 1 1 1).scatters.axes.2.2.1.axis.hi = 1000
    ∧ (500 : ℝ) ≠ 1000 :=
  ⟨rfl, rfl, by norm_num⟩

/-- C3 (code bug exhibit): the coordinate mapped onto the fifth
(time) axis is z_of_midpoint, not the time difference: two LORs with
identical endpoints and different dt get the same coordinate and the same
bin index on that axis. -/
theorem axis_t_ignores_dt :
    lorT1.p1 = lorT2.p1 ∧ lorT1.p2 = lorT2.p2 ∧ lorT1.dt ≠ lorT2.dt
    ∧ (axis_t 10 100).map lorT1 = z_of_midpoint lorT1
    ∧ (axis_t 10 100).map lorT1 = (axis_t 10 100).map lorT2
    ∧ (axis_t 10 100).index lorT1 = (axis_t 10 100).index lorT2 :=
  ⟨rfl, rfl, by norm_num [lorT1, lorT2], rfl, rfl, rfl⟩

/-- C1 (counterexample): on a freshly built scattergram, the bin containing
lorW holds zero trues and zero scatters, yet value returns f32::MAX, not
1.0. -/
theorem value_empty_bin_is_max_not_one :
    sEmpty.trues.ualue lorW = 0 ∧ sEmpty.scatters.ualue lorW = 0
    ∧ sEmpty.value lorW ≠ 1 := by
  have ht : sEmpty.trues.ualue lorW = 0 := ualue_zero_counts _ _ (fun _ => rfl)
  have hs : sEmpty.scatters.ualue lorW = 0 := ualue_zero_counts _ _ (fun _ => rfl)
  refine ⟨ht, hs, ?_⟩
  simp only [Scattergram.value, ht]
  norm_num [f32MAX]

/-- C1 (amended): whenever the bin containing the LOR holds zero trues —
regardless of its scatters count — Scattergram::value returns the
maximum-distrust sentinel f32::MAX; it returns a value and performs no
division by the zero trues count. -/
theorem value_zero_trues_sentinel (s : Scattergram) (l : LOR)
    (h : s.trues.ualue l = 0) : s.value l = f32MAX := by
  simp only [Scattergram.value, h]
  norm_num

/-- C1 witness: the amended statement at the concrete empty scattergram. -/
theorem value_zero_trues_sentinel_witness :
    sEmpty.trues.ualue lorW = 0 ∧ sEmpty.value lorW = f32MAX :=
  ⟨ualue_zero_counts _ _ (fun _ => rfl),
   value_zero_trues_sentinel sEmpty lorW (ualue_zero_counts _ _ (fun _ => rfl))⟩

/-- C4: fill(True, lor) increments exactly the trues histogram, fill(
Scatter, lor) exactly the scatters histogram, and fill(Random, lor) panics
(none) for every LOR, producing no updated state; fi11 itself increments
only the matched bin and keeps the axes. -/
theorem fill_routes_prompts (s : Scattergram) (l : LOR) :
    s.fill Prompt.True l = some { s with trues := s.trues.fi11 l }
    ∧ s.fill Prompt.Scatter l = some { s with scatters := s.scatters.fi11 l }
    ∧ s.fill Prompt.Random l = none
    ∧ ∀ g : Lorogram, ∀ i : Idx5,
        (g.fi11 l).counts i =
            (if index5 g.axes l = some i then g.counts i + 1 else g.counts i)
          ∧ (g.fi11 l).axes = g.axes := by
  refine ⟨rfl, rfl, rfl, ?_⟩
  intro g i
  unfold Lorogram.fi11
  cases h : index5 g.axes l with
  | none => simp
  | some j =>
    refine ⟨?_, rfl⟩
    by_cases hij : i = j
    · subst hij
      simp
    · simp only [if_neg hij, if_neg (fun hq : some j = some i => hij (Option.some.inj hq).symm)]

/-- C5 (counterexample): on a freshly built scattergram, value returns
f32::MAX while the first component of triplet is 1.0 at the same LOR. -/
theorem value_ne_triplet_on_empty :
    sEmpty.value lorV ≠ (sEmpty.triplet lorV).1 := by
  have ht : sEmpty.trues.ualue lorV = 0 := ualue_zero_counts _ _ (fun _ => rfl)
  simp only [Scattergram.value, Scattergram.triplet, ht]
  norm_num [f32MAX]

/-- C5 (amended): Scattergram::value(lor) equals the first component of
Scattergram::triplet(lor) whenever the bin containing the LOR holds a
positive trues count; when the trues count is zero the two disagree, value
returning f32::MAX while triplet reports 1.0. -/
theorem value_eq_triplet_fst_of_pos_trues (s : Scattergram) (l : LOR)
    (h : 0 < s.trues.ualue l) : s.value l = (s.triplet l).1 := by
  simp only [Scattergram.value, Scattergram.triplet, if_pos h]

/-- C5 witness: the amended statement after one True fill at lorV. -/
theorem value_eq_triplet_fst_witness :
    0 < sOne.trues.ualue lorV ∧ sOne.value lorV = (sOne.triplet lorV).1 :=
  ⟨sOne_trues_pos, value_eq_triplet_fst_of_pos_trues sOne lorV sOne_trues_pos⟩

/-- C6: when the bin containing the LOR holds t trues with t > 0 and s
scatters, Scattergram::value returns (s + t) / t. -/
theorem value_ratio_of_pos_trues (s : Scattergram) (l : LOR)
    (h : 0 < s.trues.ualue l) :
    s.value l
      = ((s.scatters.ualue l : ℝ) + (s.trues.ualue l : ℝ)) / (s.trues.ualue l : ℝ) := by
  simp only [Scattergram.value, if_pos h]

/-- C6 witness: the ratio statement after one True fill at lorV. -/
theorem value_ratio_witness :
    0 < sOne.trues.ualue lorV
    ∧ sOne.value lorV
      = ((sOne.scatters.ualue lorV : ℝ) + (sOne.trues.ualue lorV : ℝ))
        / (sOne.trues.ualue lorV : ℝ) :=
  ⟨sOne_trues_pos, value_ratio_of_pos_trues sOne lorV sOne_trues_pos⟩

/-- C7: value and triplet are read-only queries: calling them through an
immutable borrow returns the scattergram state unchanged, and two
successive calls with the same LOR return equal results. -/
theorem value_triplet_read_only (s : Scattergram) (l : LOR) :
    (s.valueCall l).2 = s ∧ (s.tripletCall l).2 = s
    ∧ ((s.valueCall l).2.valueCall l).1 = (s.valueCall l).1
    ∧ ((s.tripletCall l).2.tripletCall l).1 = (s.tripletCall l).1 :=
  ⟨rfl, rfl, rfl, rfl⟩

/-- C9: for every scattergram state and every LOR — degenerate or not —
value and triplet return a definite result, fully described by the trues
count of the LOR's bin; and a coordinate matching no bin reads as a zero
count (unwrap_or(&0)). -/
theorem value_triplet_total_missing_bin_zero (s : Scattergram) (l : LOR)
    (c : Idx5 → ℕ) :
    lookupOrZero c none = 0
    ∧ ((0 < s.trues.ualue l ∧ s.value l = (s.triplet l).1
          ∧ (s.triplet l).2.1 = (s.trues.ualue l : ℝ))
       ∨ (s.trues.ualue l = 0 ∧ s.value l = f32MAX ∧ (s.triplet l).1 = 1
          ∧ (s.triplet l).2.1 = 0)) := by
  refine ⟨rfl, ?_⟩
  rcases Nat.eq_zero_or_pos (s.trues.ualue l) with h | h
  · right
    refine ⟨h, ?_, ?_, ?_⟩ <;>
      simp only [Scattergram.value, Scattergram.triplet, h] <;> norm_num
  · left
    refine ⟨h, ?_, ?_⟩ <;>
      simp only [Scattergram.value, Scattergram.triplet, if_pos h]

/-- C10: the three geometric feature functions are symmetric under
exchanging a LOR's endpoints. -/
theorem features_symmetric_under_endpoint_swap (l : LOR) :
    z_of_midpoint l.swapped = z_of_midpoint l
    ∧ delta_z l.swapped = delta_z l
    ∧ distance_from_z_axis l.swapped = distance_from_z_axis l := by
  refine ⟨?_, ?_, ?_⟩
  · show (l.p2.z + l.p1.z) / 2 = (l.p1.z + l.p2.z) / 2
    ring
  · show |l.p2.z - l.p1.z| = |l.p1.z - l.p2.z|
    exact abs_sub_comm _ _
  · show |(l.p1.x - l.p2.x) * l.p2.y - (l.p1.y - l.p2.y) * l.p2.x| /
        Real.sqrt ((l.p1.x - l.p2.x) * (l.p1.x - l.p2.x)
          + (l.p1.y - l.p2.y) * (l.p1.y - l.p2.y))
      = |(l.p2.x - l.p1.x) * l.p1.y - (l.p2.y - l.p1.y) * l.p1.x| /
        Real.sqrt ((l.p2.x - l.p1.x) * (l.p2.x - l.p1.x)
          + (l.p2.y - l.p1.y) * (l.p2.y - l.p1.y))
    have hnum : (l.p1.x - l.p2.x) * l.p2.y - (l.p1.y - l.p2.y) * l.p2.x
        = -((l.p2.x - l.p1.x) * l.p1.y - (l.p2.y - l.p1.y) * l.p1.x) := by ring
    have hden : (l.p1.x - l.p2.x) * (l.p1.x - l.p2.x)
          + (l.p1.y - l.p2.y) * (l.p1.y - l.p2.y)
        = (l.p2.x - l.p1.x) * (l.p2.x - l.p1.x)
          + (l.p2.y - l.p1.y) * (l.p2.y - l.p1.y) := by ring
    rw [hnum, abs_neg, hden]

/-- During its per-axis parameter range, the ray coordinate stays in the
slab: slab-clipping soundness for one axis. -/
theorem alphaRange1_mem (p d h t : ℝ) (h0 : 0 ≤ h) (a b : ℝ)
    (hr : alphaRange1 p d h = some (a, b)) (hat : a ≤ t) (htb : t ≤ b) :
    |p + t * d| ≤ h := by
  unfold alphaRange1 at hr
  by_cases hd : d = 0
  · rw [if_pos hd] at hr
    by_cases hp : |p| ≤ h
    · subst hd
      simpa using hp
    · rw [if_neg hp] at hr
      exact absurd hr (by simp)
  · rw [if_neg hd] at hr
    simp only [Option.some.injEq, Prod.mk.injEq] at hr
    obtain ⟨ha, hb⟩ := hr
    subst ha
    subst hb
    rcases lt_trichotomy d 0 with hneg | hzero | hpos
    · have hu : (h - p) / d ≤ (-h - p) / d := by
        rw [div_le_iff_of_neg hneg, div_mul_cancel₀ _ hd]
        linarith
      rw [min_eq_right hu] at hat
      rw [max_eq_left hu] at htb
      have h1 : t * d ≤ h - p := by
        have := (div_le_iff_of_neg hneg).mp hat
        linarith
      have h2 : -h - p ≤ t * d := by
        have := (le_div_iff_of_neg hneg).mp htb
        linarith
      exact abs_le.mpr ⟨by linarith, by linarith⟩
    · exact absurd hzero hd
    · have hu : (-h - p) / d ≤ (h - p) / d := by
        rw [div_le_iff₀ hpos, div_mul_cancel₀ _ hd]
        linarith
      rw [min_eq_left hu] at hat
      rw [max_eq_right hu] at htb
      have h1 : -h - p ≤ t * d := by
        have := (div_le_iff₀ hpos).mp hat
        linarith
      have h2 : t * d ≤ h - p := by
        have := (le_div_iff₀ hpos).mp htb
        linarith
      exact abs_le.mpr ⟨by linarith, by linarith⟩

/-- If the segment lies entirely outside the (non-degenerate) FOV box, the
clipped entry/exit parameter range is empty. -/
theorem entryExit_eq_none_of_outside (fov : FOV) (l : LOR)
    (hx : 0 ≤ fov.hx) (hy : 0 ≤ fov.hy) (hz : 0 ≤ fov.hz)
    (hout : entirelyOutside fov l) : entryExit fov l = none := by
  unfold entryExit
  cases h1 : alphaRange1 l.p1.x (l.p2.x - l.p1.x) fov.hx with
  | none => rfl
  | some ab1 =>
  cases h2 : alphaRange1 l.p1.y (l.p2.y - l.p1.y) fov.hy with
  | none => rfl
  | some ab2 =>
  cases h3 : alphaRange1 l.p1.z (l.p2.z - l.p1.z) fov.hz with
  | none => rfl
  | some ab3 =>
  obtain ⟨a1, b1⟩ := ab1
  obtain ⟨a2, b2⟩ := ab2
  obtain ⟨a3, b3⟩ := ab3
  have hnlt : ¬ max 0 (max a1 (max a2 a3)) < min 1 (min b1 (min b2 b3)) := by
    intro hlt
    set lo := max 0 (max a1 (max a2 a3)) with hlo
    set hi := min 1 (min b1 (min b2 b3)) with hhi
    set t := (lo + hi) / 2 with htdef
    have hlot : lo ≤ t := by rw [htdef]; linarith
    have hthi : t ≤ hi := by rw [htdef]; linarith
    have ht0 : 0 ≤ t := le_trans (le_max_left 0 _) hlot
    have ht1 : t ≤ 1 := le_trans hthi (min_le_left 1 _)
    have ha1 : a1 ≤ t := le_trans (le_trans (le_max_left a1 _) (le_max_right 0 _)) hlot
    have ha2 : a2 ≤ t :=
      le_trans (le_trans (le_trans (le_max_left a2 a3) (le_max_right a1 _)) (le_max_right 0 _)) hlot
    have ha3 : a3 ≤ t :=
      le_trans (le_trans (le_trans (le_max_right a2 a3) (le_max_right a1 _)) (le_max_right 0 _)) hlot
    have hb1 : t ≤ b1 := le_trans hthi (le_trans (min_le_right 1 _) (min_le_left b1 _))
    have hb2 : t ≤ b2 :=
      le_trans hthi (le_trans (min_le_right 1 _) (le_trans (min_le_right b1 _) (min_le_left b2 b3)))
    have hb3 : t ≤ b3 :=
      le_trans hthi (le_trans (min_le_right 1 _) (le_trans (min_le_right b1 _) (min_le_right b2 b3)))
    have hinx : |l.p1.x + t * (l.p2.x - l.p1.x)| ≤ fov.hx :=
      alphaRange1_mem _ _ _ t hx a1 b1 h1 ha1 hb1
    have hiny : |l.p1.y + t * (l.p2.y - l.p1.y)| ≤ fov.hy :=
      alphaRange1_mem _ _ _ t hy a2 b2 h2 ha2 hb2
    have hinz : |l.p1.z + t * (l.p2.z - l.p1.z)| ≤ fov.hz :=
      alphaRange1_mem _ _ _ t hz a3 b3 h3 ha3 hb3
    exact hout t ht0 ht1 ⟨hinx, hiny, hinz⟩
  simp only [if_neg hnlt]

/-- C8: the Siddon projector produces an empty system-matrix row for every
zero-length LOR and for every LOR whose segment lies entirely outside the
FOV box (half-widths nonnegative). -/
theorem siddon_empty_row_outside_or_degenerate (fov : FOV) (l : LOR)
    (hx : 0 ≤ fov.hx) (hy : 0 ≤ fov.hy) (hz : 0 ≤ fov.hz)
    (h : l.p1 = l.p2 ∨ entirelyOutside fov l) :
    siddon fov l = [] := by
  unfold siddon
  rcases h with heq | hout
  · rw [if_pos ⟨congrArg Point.x heq, congrArg Point.y heq, congrArg Point.z heq⟩]
  · by_cases heq : l.p1.x = l.p2.x ∧ l.p1.y = l.p2.y ∧ l.p1.z = l.p2.z
    · rw [if_pos heq]
    · rw [if_neg heq, entryExit_eq_none_of_outside fov l hx hy hz hout]

/-- C8 witness: the theorem applied to a LOR held at x = 5, entirely
outside the unit-half-width FOV, and to a zero-length LOR. -/
theorem siddon_empty_row_witness :
    ((0 : ℝ) ≤ fovW.hx ∧ entirelyOutside fovW lorOut ∧ lorDeg.p1 = lorDeg.p2)
    ∧ siddon fovW lorOut = [] ∧ siddon fovW lorDeg = [] := by
  have hout : entirelyOutside fovW lorOut := by
    intro t ht0 ht1 hin
    have hx5 := hin.1
    norm_num [pointAt, inFOV, fovW, lorOut] at hx5
  refine ⟨⟨by norm_num [fovW], hout, rfl⟩, ?_, ?_⟩
  · exact siddon_empty_row_outside_or_degenerate fovW lorOut
      (by norm_num [fovW]) (by norm_num [fovW]) (by norm_num [fovW]) (Or.inr hout)
  · exact siddon_empty_row_outside_or_degenerate fovW lorDeg
      (by norm_num [fovW]) (by norm_num [fovW]) (by norm_num [fovW]) (Or.inl rfl)

end Petalo
